import Mathlib

/-!
Verification of the QueryTube semantic-search application (`app.py`).

The file shallowly embeds the parts of the program that the specification
talks about:

* the module-level asset loading (Part 2 of `app.py`): `pd.read_csv` /
  `np.load` wrapped in `try/except FileNotFoundError` ending in `exit()`;
* the cached query encoder (Part 3): `encode_query`, a wrapper around
  `model.encode` memoised with `functools.lru_cache(maxsize=128)`;
* the search routine (Part 3): `search_generator`, which trims the query,
  encodes it, computes a row of similarity scores against the corpus
  matrix, and ranks indices with `np.argsort(similarities)[-k:][::-1]`.

Modelling conventions:

* Vectors are `List ℚ`; floating-point scores are modelled by rationals,
  which share the ordering structure the ranking logic relies on.
* `model.encode` (the SentenceTransformer) and `cosine_similarity`
  (scikit-learn) are external library calls; they enter the model as
  function parameters (`modelEncode`, `sim`).  The row
  `cosine_similarity(query_embedding, corpus_embeddings)[0]` is
  `corpus.map (sim qe)`.  Ranking facts are proved for every such
  function; concrete instances use kernels that agree with cosine
  similarity on the vectors they are applied to.
* `np.argsort` is modelled as the ascending sort of `[0, …, N-1]` by
  score.  The program calls `np.argsort` with its default quicksort,
  which NumPy documents as unstable, so the code fixes no tie order in
  general; the model resolves exact score ties by ascending index, which
  matches NumPy only at the small array sizes where its sort degenerates
  to insertion sort.  Accordingly, every universally quantified theorem
  below has a conclusion that is invariant under the tie order (weak
  descent, permutation of indices, lengths, branch selection), and
  tie-order-sensitive facts are stated only at concrete inputs inside
  that small-array regime, where the model is exact.
* Python's `a[-k:]` slice (including the `k = 0` case, where `a[-0:]`
  is the whole array) is `pySliceLast`.
* Python exceptions raised by the embedding computation are made
  explicit in a second rendering `search_generatorE` over `Except`;
  `search_generator` itself installs no handler, mirroring the absence
  of `try/except` in the function body.
-/

namespace QueryTube

/-- Embedding vectors (rows of `app_embeddings.npy`, encoder outputs). -/
abbrev Vec := List ℚ

/-! ### Part 2 of `app.py`: module-level asset loading -/

/-- Outcome of the module-level load block: either the process goes on to
serve with the loaded dataframe and embedding matrix, or it halts with a
printed message and a process exit code. -/
inductive StartupResult where
  | serving (df : List String) (emb : List Vec)
  | halted (msg : String) (exitCode : ℕ)
deriving DecidableEq

/-- The message printed by the `except FileNotFoundError` branch
(quotation marks elided). -/
def assetMissingMsg : String :=
  "ERROR: Could not find app_data.csv or app_embeddings.npy. Please run prepare_final_assets.py first."

/-- The `try`/`except FileNotFoundError` block of `app.py` (lines 17-30).
A source is `none` when its file is absent, in which case the read raises
`FileNotFoundError`; the handler prints `assetMissingMsg` and calls
`exit()`, which in Python raises `SystemExit(None)` and terminates the
interpreter with exit status `0`.  When both reads succeed the block
performs no further validation (in particular no row-count comparison)
and the process proceeds to serve. -/
def startup (recSrc : Option (List String)) (embSrc : Option (List Vec)) :
    StartupResult :=
  match recSrc, embSrc with
  | some df, some emb => .serving df emb
  | _, _ => .halted assetMissingMsg 0

/-! ### Part 3 of `app.py`: the cached encoder `encode_query` -/

/-- State of the `functools.lru_cache` attached to `encode_query`:
the memo table (most recently used first) and the number of calls that
reached the underlying `model.encode` (cache misses). -/
structure EncCache where
  entries : List (String × Vec)
  misses : ℕ
deriving DecidableEq

/-- `maxsize=128` from the `@lru_cache(maxsize=128)` decorator. -/
def lruMaxsize : ℕ := 128

/-- `encode_query(query)` with its `lru_cache`: on a hit the cached vector
is returned and the entry becomes most recently used; on a miss the
underlying model is invoked, the result is inserted most recently used,
and the least recently used entry is dropped if the table would exceed
`lruMaxsize`. -/
def encode_query (modelEncode : String → Vec) (c : EncCache) (q : String) :
    Vec × EncCache :=
  match c.entries.find? (fun p => p.1 == q) with
  | some p => (p.2, ⟨(q, p.2) :: c.entries.eraseP (fun p => p.1 == q), c.misses⟩)
  | none =>
      let v := modelEncode q
      (v, ⟨((q, v) :: c.entries).take lruMaxsize, c.misses + 1⟩)

/-- Cache consistency: every memoised vector is the model's output for its
key.  This holds for the empty initial cache and is preserved by every
call (`CacheOK_step`), so it holds for all reachable cache states. -/
def CacheOK (modelEncode : String → Vec) (c : EncCache) : Prop :=
  ∀ p ∈ c.entries, p.2 = modelEncode p.1

/-! ### Part 3 of `app.py`: `search_generator` -/

/-- The guard `not query.strip()` on line 42: Python's `strip()` removes
surrounding whitespace, and the stripped string is falsy exactly when it
is empty, i.e. when every character of `query` is whitespace. -/
def strippedIsEmpty (query : String) : Bool :=
  query.data.all (fun c => c.isWhitespace)

/-- Python's `a[-k:]` on a list: for `k = 0` the slice `a[-0:]` is `a[0:]`,
the whole list; for `k > 0` it is the last `min k (length a)` elements. -/
def pySliceLast {α : Type} (l : List α) (k : ℕ) : List α :=
  if k = 0 then l else l.drop (l.length - k)

/-- The ordering used to model `np.argsort`: ascending score, exact ties
resolved by ascending index.  The tie clause is a modelling choice:
NumPy's default quicksort guarantees no tie order (it is insertion sort,
hence stable ascending, only on small arrays), so conclusions drawn for
every corpus must not depend on it — see the module docstring. -/
def argR (s : List ℚ) (i j : ℕ) : Prop :=
  s.getD i 0 < s.getD j 0 ∨ (s.getD i 0 = s.getD j 0 ∧ i ≤ j)

instance argR.decidableRel (s : List ℚ) : DecidableRel (argR s) := fun i j =>
  inferInstanceAs (Decidable (_ ∨ _))

/-- `np.argsort(s)`: the indices `0, …, len s - 1` sorted ascending by
score (ties by index, a choice the program only matches on small
arrays — see `argR`). -/
def argsort (s : List ℚ) : List ℕ :=
  List.insertionSort (argR s) (List.range s.length)

/-- `np.argsort(similarities)[-k:][::-1]` from line 50 of `app.py`. -/
def top_k_indices (s : List ℚ) (k : ℕ) : List ℕ :=
  (pySliceLast (argsort s) k).reverse

/-- The final yield of `search_generator`, keeping the ranking data and
abstracting the rendered HTML: the "Please enter a valid search query"
idle yield, the "No results found" yield, or the ranked results (each
index paired with its similarity score). -/
inductive SearchOutcome where
  | emptyQuery
  | noResults
  | results (items : List (ℕ × ℚ))
deriving DecidableEq

/-- The ranked result list built from `top_k_indices`: each selected
index paired with its similarity score (the loop over `top_k_indices` on
lines 59-82, keeping the ranking data of each rendered card). -/
def rankedItems (s : List ℚ) (k : ℕ) : List (ℕ × ℚ) :=
  (top_k_indices s k).map (fun i => (i, s.getD i 0))

/-- `search_generator(query, k=5)` (lines 40-84 of `app.py`), as the final
outcome of the generator.  `enc` is the (already cache-resolved) query
encoder, `sim` the similarity kernel applied to each corpus row, so that
`corpus.map (sim (enc query))` is the row `similarities` of line 49;
`corpus` is the list of rows of `corpus_embeddings`.  The intermediate
`("", "Searching...")` yield carries no ranking data and is not
modelled. -/
def search_generator (enc : String → Vec) (sim : Vec → Vec → ℚ)
    (corpus : List Vec) (query : String) (k : ℕ) : SearchOutcome :=
  if strippedIsEmpty query then .emptyQuery
  else if (top_k_indices (corpus.map (sim (enc query))) k).length = 0 then .noResults
  else .results (rankedItems (corpus.map (sim (enc query))) k)

/-- `search_generator` with the exception channel of the embedding
computation made explicit: `enc` may fail, and the function body installs
no `try`/`except`, so a failure propagates to the caller.  On the
successful path this agrees with `search_generator`. -/
def search_generatorE (enc : String → Except String Vec)
    (sim : Vec → Vec → ℚ) (corpus : List Vec) (query : String) (k : ℕ) :
    Except String SearchOutcome :=
  if strippedIsEmpty query then .ok .emptyQuery
  else
    match enc query with
    | .error e => .error e
    | .ok query_embedding =>
      if (top_k_indices (corpus.map (sim query_embedding)) k).length = 0 then .ok .noResults
      else .ok (.results (rankedItems (corpus.map (sim query_embedding)) k))

/-- Similarity kernel used in concrete instances below: the constant `1`,
which agrees with cosine similarity when query embedding and corpus row
are the identical unit vector (as in those instances). -/
def simOne : Vec → Vec → ℚ := fun _ _ => 1

/-! ### Properties of the ranking pipeline -/

theorem argR_total (s : List ℚ) : ∀ i j, argR s i j ∨ argR s j i := by
  intro i j
  rcases lt_trichotomy (s.getD i 0) (s.getD j 0) with h | h | h
  · exact Or.inl (Or.inl h)
  · rcases Nat.le_total i j with hij | hij
    · exact Or.inl (Or.inr ⟨h, hij⟩)
    · exact Or.inr (Or.inr ⟨h.symm, hij⟩)
  · exact Or.inr (Or.inl h)

theorem argR_trans (s : List ℚ) :
    ∀ i j m, argR s i j → argR s j m → argR s i m := by
  intro i j m hij hjm
  rcases hij with h1 | ⟨h1, h1i⟩ <;> rcases hjm with h2 | ⟨h2, h2i⟩
  · exact Or.inl (h1.trans h2)
  · exact Or.inl (lt_of_lt_of_le h1 (le_of_eq h2))
  · exact Or.inl (lt_of_le_of_lt (le_of_eq h1) h2)
  · exact Or.inr ⟨h1.trans h2, h1i.trans h2i⟩

theorem argsort_perm (s : List ℚ) : List.Perm (argsort s) (List.range s.length) :=
  List.perm_insertionSort _ _

theorem argsort_length (s : List ℚ) : (argsort s).length = s.length :=
  ((argsort_perm s).length_eq).trans (List.length_range s.length)

theorem argsort_sorted (s : List ℚ) : (argsort s).Pairwise (argR s) := by
  haveI : IsTotal ℕ (argR s) := ⟨argR_total s⟩
  haveI : IsTrans ℕ (argR s) := ⟨argR_trans s⟩
  exact List.sorted_insertionSort (argR s) (List.range s.length)

theorem argsort_nodup (s : List ℚ) : (argsort s).Nodup :=
  ((argsort_perm s).nodup_iff).mpr (List.nodup_range s.length)

theorem pySliceLast_sublist {α : Type} (l : List α) (k : ℕ) :
    List.Sublist (pySliceLast l k) l := by
  unfold pySliceLast
  split
  · exact List.Sublist.refl l
  · exact (List.drop_suffix _ _).sublist

theorem pySliceLast_length {α : Type} (l : List α) {k : ℕ} (h0 : k ≠ 0) :
    (pySliceLast l k).length = min k l.length := by
  unfold pySliceLast
  rw [if_neg h0, List.length_drop]
  omega

theorem pySliceLast_all {α : Type} (l : List α) {k : ℕ}
    (h : k = 0 ∨ l.length ≤ k) : pySliceLast l k = l := by
  unfold pySliceLast
  rcases h with rfl | h
  · rw [if_pos rfl]
  · split
    · rfl
    · have hz : l.length - k = 0 := by omega
      rw [hz, List.drop_zero]

theorem top_k_length (s : List ℚ) {k : ℕ} (h0 : k ≠ 0) :
    (top_k_indices s k).length = min k s.length := by
  unfold top_k_indices
  rw [List.length_reverse, pySliceLast_length _ h0, argsort_length]

theorem top_k_length_zero (s : List ℚ) :
    (top_k_indices s 0).length = s.length := by
  unfold top_k_indices
  rw [pySliceLast_all _ (Or.inl rfl), List.length_reverse, argsort_length]

theorem top_k_pairwise (s : List ℚ) (k : ℕ) :
    (top_k_indices s k).Pairwise (fun i j => argR s j i ∧ j ≠ i) := by
  unfold top_k_indices
  refine List.pairwise_reverse.mpr ?_
  exact (List.Pairwise.sublist (pySliceLast_sublist _ _) (argsort_sorted s)).and
    (List.Nodup.sublist (pySliceLast_sublist _ _) (argsort_nodup s))

theorem top_k_all (s : List ℚ) {k : ℕ} (h : k = 0 ∨ s.length ≤ k) :
    List.Perm (top_k_indices s k) (List.range s.length) := by
  unfold top_k_indices
  rw [pySliceLast_all]
  · exact (List.reverse_perm _).trans (argsort_perm s)
  · rcases h with rfl | h
    · exact Or.inl rfl
    · exact Or.inr (by rw [argsort_length]; exact h)

theorem rankedItems_desc (s : List ℚ) (k : ℕ) :
    (rankedItems s k).Pairwise (fun a b => b.2 ≤ a.2) := by
  unfold rankedItems
  refine List.pairwise_map.mpr ((top_k_pairwise s k).imp ?_)
  rintro i j ⟨hr, -⟩
  rcases hr with h | ⟨h, -⟩
  · exact le_of_lt h
  · exact le_of_eq h

theorem rankedItems_length (s : List ℚ) (k : ℕ) :
    (rankedItems s k).length = (top_k_indices s k).length :=
  List.length_map _ _

theorem rankedItems_fst (s : List ℚ) (k : ℕ) :
    (rankedItems s k).map Prod.fst = top_k_indices s k := by
  unfold rankedItems
  rw [List.map_map]
  exact List.map_id _

/-! ### Properties of the cached encoder -/

theorem encode_query_val (f : String → Vec) (c : EncCache) (q : String)
    (h : CacheOK f c) : (encode_query f c q).1 = f q := by
  unfold encode_query
  cases hf : c.entries.find? (fun p => p.1 == q) with
  | none => rfl
  | some p =>
    have hm : p ∈ c.entries := List.mem_of_find?_eq_some hf
    have hpq : p.1 = q := by simpa using List.find?_some hf
    simpa [hpq] using h p hm

theorem CacheOK_step (f : String → Vec) (c : EncCache) (q : String)
    (h : CacheOK f c) : CacheOK f (encode_query f c q).2 := by
  unfold encode_query
  cases hf : c.entries.find? (fun p => p.1 == q) with
  | none =>
    intro p hp
    have hp' : p ∈ (q, f q) :: c.entries := List.take_subset _ _ hp
    rcases List.mem_cons.mp hp' with rfl | hp''
    · rfl
    · exact h p hp''
  | some p' =>
    have hm : p' ∈ c.entries := List.mem_of_find?_eq_some hf
    have hpq : p'.1 = q := by simpa using List.find?_some hf
    intro p hp
    rcases List.mem_cons.mp hp with rfl | hp''
    · simpa [hpq] using h p' hm
    · exact h p ((List.eraseP_sublist _).subset hp'')

/-! ### Predicates naming the shapes the claims assert -/

/-- The outcome is a ranked result list of length `k`, ordered (weakly)
descending by score: strict wherever scores differ, with no commitment on
the relative order of exact score ties.  This shape holds for any correct
argsort regardless of how it resolves ties. -/
def resultsOfLengthOrdered (o : SearchOutcome) (k : ℕ) : Prop :=
  match o with
  | .results l =>
      l.length = k ∧ l.Pairwise (fun a b => b.2 ≤ a.2)
  | _ => False

/-- The outcome is a ranked result list covering every corpus index
`0, …, n-1` exactly once, ordered (weakly) descending by score. -/
def resultsRankAll (o : SearchOutcome) (n : ℕ) : Prop :=
  match o with
  | .results l =>
      List.Perm (l.map Prod.fst) (List.range n) ∧
        l.Pairwise (fun a b => b.2 ≤ a.2)
  | _ => False

/-! ### The claims -/

/-- C1 (amended): for every non-empty (after stripping) query and every
positive `k` not exceeding the corpus size, `search_generator` returns
exactly `k` `(record_index, score)` results, ordered descending by
similarity score — non-strictly on exact score ties, strictly whenever
scores differ.  Proved for every encoder and similarity kernel, and the
conclusion is independent of how `np.argsort` resolves ties. -/
theorem search_topk_length_ordered (enc : String → Vec) (sim : Vec → Vec → ℚ)
    (corpus : List Vec) (query : String) (k : ℕ)
    (hq : strippedIsEmpty query = false) (hk : 0 < k)
    (hkc : k ≤ corpus.length) :
    resultsOfLengthOrdered (search_generator enc sim corpus query k) k := by
  have hs : (corpus.map (sim (enc query))).length = corpus.length :=
    List.length_map _ _
  have hlen : (top_k_indices (corpus.map (sim (enc query))) k).length = k := by
    rw [top_k_length _ (Nat.pos_iff_ne_zero.mp hk), hs]
    omega
  simp only [search_generator, hq, Bool.false_eq_true, if_false]
  rw [if_neg (by omega :
    ¬ (top_k_indices (corpus.map (sim (enc query))) k).length = 0)]
  exact ⟨(rankedItems_length _ _).trans hlen, rankedItems_desc _ _⟩

/-- C1 witness: a concrete run with `k = 2` on a three-row corpus. -/
theorem search_topk_length_ordered_witness :
    strippedIsEmpty "a" = false ∧ 0 < 2 ∧ 2 ≤ ([[1], [2], [3]] : List Vec).length ∧
      resultsOfLengthOrdered
        (search_generator (fun _ => [1]) (fun _ r => r.getD 0 0) [[1], [2], [3]] "a" 2) 2 :=
  ⟨by decide, by decide, by decide,
    search_topk_length_ordered (fun _ => [1]) (fun _ r => r.getD 0 0)
      [[1], [2], [3]] "a" 2 (by decide) (by decide) (by decide)⟩

/-- C1 counterexample: on a corpus with two identical rows every
similarity kernel (cosine similarity included) gives both rows the same
score, so the two returned scores tie and the result is not strictly
descending by score. -/
theorem search_strictly_descending_cex :
    search_generator (fun _ => [1]) simOne [[1], [1]] "a" 2 =
        .results [(1, 1), (0, 1)] ∧
      ¬ ([((1 : ℕ), (1 : ℚ)), (0, 1)].Pairwise (fun a b => b.2 < a.2)) :=
  ⟨by decide, by decide⟩

/-- C2 (amended): exact score ties are not ordered with the lower corpus
row index first.  `np.argsort` is called with its default quicksort,
which NumPy documents as unstable, so the code fixes no tie order in
general; at the sizes where NumPy's sort is insertion sort (hence stable
ascending) — as on this two-row corpus of identical rows, where the
embedding here is exact — the `[::-1]` reversal returns the tied rows
with the higher row index first. -/
theorem search_ties_not_lower_first :
    search_generator (fun _ => [2]) simOne [[2], [2]] "b" 2 =
      .results [(1, 1), (0, 1)] := by decide

/-- C2 counterexample: two identical corpus rows tie under any similarity
kernel; the code returns index 1 before index 0, so ties are not ordered
with the lower row index first. -/
theorem search_ties_ascending_index_cex :
    search_generator (fun _ => [1]) simOne [[1], [1]] "a" 2 =
        .results [(1, 1), (0, 1)] ∧
      ¬ ([((1 : ℕ), (1 : ℚ)), (0, 1)].Pairwise
        (fun a b => a.2 = b.2 → a.1 < b.1)) :=
  ⟨by decide, by decide⟩

/-- C3: for every non-empty query over a non-empty corpus and every
`k` strictly greater than the corpus size `N`, `search_generator` returns
all `N` corpus indices exactly once, ranked descending by similarity; the
Python slice `[-k:]` clamps to the whole array, so no error is raised. -/
theorem search_k_exceeds_corpus_all (enc : String → Vec)
    (sim : Vec → Vec → ℚ) (corpus : List Vec) (query : String) (k : ℕ)
    (hq : strippedIsEmpty query = false) (hc : corpus ≠ [])
    (hk : corpus.length < k) :
    resultsRankAll (search_generator enc sim corpus query k) corpus.length := by
  have hs : (corpus.map (sim (enc query))).length = corpus.length :=
    List.length_map _ _
  have hperm : List.Perm (top_k_indices (corpus.map (sim (enc query))) k)
      (List.range corpus.length) := by
    have h := top_k_all (corpus.map (sim (enc query)))
      (k := k) (Or.inr (by rw [hs]; omega))
    rwa [hs] at h
  have hlen : (top_k_indices (corpus.map (sim (enc query))) k).length ≠ 0 := by
    rw [hperm.length_eq, List.length_range]
    intro h0
    exact hc (List.length_eq_zero.mp h0)
  simp only [search_generator, hq, Bool.false_eq_true, if_false]
  rw [if_neg hlen]
  exact ⟨by rw [rankedItems_fst]; exact hperm, rankedItems_desc _ _⟩

/-- C3 witness: `k = 5` on a corpus of three rows returns all three. -/
theorem search_k_exceeds_corpus_all_witness :
    strippedIsEmpty "a" = false ∧ ([[1], [2], [3]] : List Vec) ≠ [] ∧
      ([[1], [2], [3]] : List Vec).length < 5 ∧
      resultsRankAll
        (search_generator (fun _ => [1]) (fun _ r => r.getD 0 0) [[1], [2], [3]] "a" 5) 3 :=
  ⟨by decide, by decide, by decide,
    search_k_exceeds_corpus_all (fun _ => [1]) (fun _ r => r.getD 0 0)
      [[1], [2], [3]] "a" 5 (by decide) (by decide) (by decide)⟩

/-- C4: a query that is empty or consists only of whitespace makes
`search_generator` return the distinguished idle signal.  The statement
is quantified over every encoder `enc` and similarity kernel `sim` and
its conclusion does not depend on them: neither the encoder nor any
similarity computation is invoked on this path, and no ranked result is
returned. -/
theorem search_blank_query_idle (enc : String → Vec) (sim : Vec → Vec → ℚ)
    (corpus : List Vec) (query : String) (k : ℕ)
    (hq : strippedIsEmpty query = true) :
    search_generator enc sim corpus query k = .emptyQuery := by
  unfold search_generator
  rw [hq, if_pos rfl]

/-- C4 witness: both `""` and `"   "` yield the idle signal. -/
theorem search_blank_query_idle_witness :
    strippedIsEmpty "" = true ∧ strippedIsEmpty "   " = true ∧
      search_generator (fun _ => [1]) simOne [[1]] "" 5 = .emptyQuery ∧
      search_generator (fun _ => [1]) simOne [[1]] "   " 5 = .emptyQuery :=
  ⟨by decide, by decide,
    search_blank_query_idle (fun _ => [1]) simOne [[1]] "" 5 (by decide),
    search_blank_query_idle (fun _ => [1]) simOne [[1]] "   " 5 (by decide)⟩

/-- C5 (amended): the load block performs no row-count alignment check:
a records source with `N` rows and an embeddings source with `M ≠ N`
rows loads successfully and the process proceeds to serve queries over
the misaligned corpus; no `CorpusMisaligned` error exists in the code. -/
theorem startup_misaligned_no_check (df : List String) (emb : List Vec)
    (h : df.length ≠ emb.length) :
    startup (some df) (some emb) = .serving df emb := rfl

/-- C5 witness: two records against three embedding rows. -/
theorem startup_misaligned_no_check_witness :
    (["a", "b"] : List String).length ≠ ([[1], [2], [3]] : List Vec).length ∧
      startup (some ["a", "b"]) (some [[1], [2], [3]]) =
        .serving ["a", "b"] [[1], [2], [3]] :=
  ⟨by decide, startup_misaligned_no_check ["a", "b"] [[1], [2], [3]] (by decide)⟩

/-- C5 counterexample: loading two records with three embedding rows does
not raise any fatal error — the process reaches the serving state, so a
misaligned corpus is served, contradicting the claim. -/
theorem startup_misaligned_serves_cex :
    startup (some ["a", "b"]) (some [[1], [2], [3]]) =
        .serving ["a", "b"] [[1], [2], [3]] ∧
      (["a", "b"] : List String).length ≠ ([[1], [2], [3]] : List Vec).length :=
  ⟨rfl, by decide⟩

/-- The original C6 claim requires a halted startup with non-zero exit
status. -/
def exitsNonzero (r : StartupResult) : Prop :=
  match r with
  | .halted _ c => c ≠ 0
  | _ => False

/-- C6 (amended): if either startup artifact is absent, startup halts
with the descriptive message and never reaches the serving state, but the
process exit status is `0`, because the handler calls `exit()` with no
argument (`SystemExit(None)`), not a non-zero exit. -/
theorem startup_missing_asset_halts (recSrc : Option (List String))
    (embSrc : Option (List Vec)) (h : recSrc = none ∨ embSrc = none) :
    startup recSrc embSrc = .halted assetMissingMsg 0 := by
  rcases h with rfl | rfl
  · cases embSrc <;> rfl
  · cases recSrc <;> rfl

/-- C6 witness: records file absent, embeddings present. -/
theorem startup_missing_asset_halts_witness :
    ((none : Option (List String)) = none ∨ (some ([] : List Vec)) = none) ∧
      startup none (some []) = .halted assetMissingMsg 0 :=
  ⟨Or.inl rfl, startup_missing_asset_halts none (some []) (Or.inl rfl)⟩

/-- C6 counterexample: with the records file absent the process halts
with exit status `0`, so it does not exit with a non-zero status. -/
theorem startup_exit_status_cex :
    startup none (some []) = .halted assetMissingMsg 0 ∧
      ¬ exitsNonzero (startup none (some [])) :=
  ⟨rfl, fun h => h rfl⟩

/-- C7: `encode_query` is deterministic within a process: from any two
cache states consistent with the underlying model (as every reachable
state is, by `CacheOK_step` starting from the empty cache), two calls
with the same query string return equal vectors (both equal the model
output for that string, whether served from cache or computed). -/
theorem encode_query_deterministic (f : String → Vec) (c c' : EncCache)
    (q : String) (h : CacheOK f c) (h' : CacheOK f c') :
    (encode_query f c q).1 = (encode_query f c' q).1 := by
  rw [encode_query_val f c q h, encode_query_val f c' q h']

/-- C7 witness: a fresh cache against a cache already holding an entry. -/
theorem encode_query_deterministic_witness :
    CacheOK (fun _ => [5]) ⟨[], 0⟩ ∧ CacheOK (fun _ => [5]) ⟨[("a", [5])], 3⟩ ∧
      (encode_query (fun _ => [5]) ⟨[], 0⟩ "b").1 =
        (encode_query (fun _ => [5]) ⟨[("a", [5])], 3⟩ "b").1 := by
  have h1 : CacheOK (fun _ => [5]) ⟨[], 0⟩ := by simp [CacheOK]
  have h2 : CacheOK (fun _ => [5]) ⟨[("a", [5])], 3⟩ := by simp [CacheOK]
  exact ⟨h1, h2, encode_query_deterministic (fun _ => [5]) _ _ "b" h1 h2⟩

/-- C9 (amended): if the embedding computation fails during a search of a
non-blank query, `search_generator` contains no handler (`try`/`except`)
for it, so the exception propagates out of the generator to the hosting
framework instead of being converted into a request-level result. -/
theorem search_encoding_failure_propagates (enc : String → Except String Vec)
    (sim : Vec → Vec → ℚ) (corpus : List Vec) (query : String) (k : ℕ)
    (e : String) (hq : strippedIsEmpty query = false)
    (he : enc query = .error e) :
    search_generatorE enc sim corpus query k = .error e := by
  unfold search_generatorE
  rw [hq, if_neg Bool.false_ne_true, he]

/-- C9 witness: a failing encoder on a non-blank query. -/
theorem search_encoding_failure_propagates_witness :
    strippedIsEmpty "hi" = false ∧
      ((fun _ => Except.error "boom" : String → Except String Vec) "hi" =
        .error "boom") ∧
      search_generatorE (fun _ => .error "boom") simOne [[1]] "hi" 5 =
        .error "boom" :=
  ⟨by decide, rfl,
    search_encoding_failure_propagates (fun _ => .error "boom") simOne
      [[1]] "hi" 5 "boom" (by decide) rfl⟩

/-- C9 counterexample: with a failing encoder the call evaluates to the
propagated exception `Except.error`, not to any `Except.ok` response, so
the failure is not captured and surfaced as a request-level error result
by the repository code. -/
theorem search_encoding_failure_captured_cex :
    search_generatorE (fun _ => .error "boom") simOne [[1]] "hi" 5 =
        .error "boom" ∧
      ¬ ∃ o, search_generatorE (fun _ => .error "boom") simOne [[1]] "hi" 5 =
        .ok o := by
  constructor
  · rfl
  · rintro ⟨o, ho⟩
    rw [show search_generatorE (fun _ => .error "boom") simOne [[1]] "hi" 5 =
      .error "boom" from rfl] at ho
    exact Except.noConfusion ho

/-- C10: with a non-empty query over a non-empty corpus, `k = 0` does not
return zero results: `argsort(similarities)[-0:]` is the whole array, so
the call returns exactly what `k = N` (the corpus size) returns — all `N`
indices ranked descending by similarity. -/
theorem search_k_zero_full_ranking (enc : String → Vec)
    (sim : Vec → Vec → ℚ) (corpus : List Vec) (query : String)
    (hq : strippedIsEmpty query = false) (hc : corpus ≠ []) :
    search_generator enc sim corpus query 0 =
        search_generator enc sim corpus query corpus.length ∧
      resultsRankAll (search_generator enc sim corpus query 0) corpus.length := by
  have hs : (corpus.map (sim (enc query))).length = corpus.length :=
    List.length_map _ _
  have hkey : top_k_indices (corpus.map (sim (enc query))) 0 =
      top_k_indices (corpus.map (sim (enc query))) corpus.length := by
    unfold top_k_indices
    rw [pySliceLast_all _ (Or.inl rfl),
      pySliceLast_all _ (Or.inr (le_of_eq ((argsort_length _).trans hs)))]
  have hkey2 : rankedItems (corpus.map (sim (enc query))) 0 =
      rankedItems (corpus.map (sim (enc query))) corpus.length := by
    unfold rankedItems
    rw [hkey]
  constructor
  · unfold search_generator
    rw [hkey, hkey2]
  · have hperm : List.Perm (top_k_indices (corpus.map (sim (enc query))) 0)
        (List.range corpus.length) := by
      have h := top_k_all (corpus.map (sim (enc query))) (k := 0) (Or.inl rfl)
      rwa [hs] at h
    have hlen : (top_k_indices (corpus.map (sim (enc query))) 0).length ≠ 0 := by
      rw [hperm.length_eq, List.length_range]
      intro h0
      exact hc (List.length_eq_zero.mp h0)
    simp only [search_generator, hq, Bool.false_eq_true, if_false]
    rw [if_neg hlen]
    exact ⟨by rw [rankedItems_fst]; exact hperm, rankedItems_desc _ _⟩

/-- C10 witness: `k = 0` on a three-row corpus returns all three rows. -/
theorem search_k_zero_full_ranking_witness :
    strippedIsEmpty "a" = false ∧ ([[1], [2], [3]] : List Vec) ≠ [] ∧
      (search_generator (fun _ => [1]) (fun _ r => r.getD 0 0) [[1], [2], [3]] "a" 0 =
          search_generator (fun _ => [1]) (fun _ r => r.getD 0 0) [[1], [2], [3]] "a" 3 ∧
        resultsRankAll
          (search_generator (fun _ => [1]) (fun _ r => r.getD 0 0) [[1], [2], [3]] "a" 0) 3) :=
  ⟨by decide, by decide,
    search_k_zero_full_ranking (fun _ => [1]) (fun _ r => r.getD 0 0)
      [[1], [2], [3]] "a" (by decide) (by decide)⟩

/-- A call on a query not in the cache reaches the underlying model,
increments the miss counter, inserts the new entry most recently used and
truncates the table to `lruMaxsize` entries. -/
theorem encode_query_miss (f : String → Vec) (c : EncCache) (q : String)
    (hfind : c.entries.find? (fun p => p.1 == q) = none) :
    encode_query f c q =
      (f q, ⟨((q, f q) :: c.entries).take lruMaxsize, c.misses + 1⟩) := by
  unfold encode_query
  rw [hfind]

/-- C8: the `lru_cache(maxsize=128)` on `encode_query` evicts exactly the
least-recently-used entry.  The cache state is `es ++ [(lk, lv)]`, most
recently used first, holding `128` distinct query strings with `(lk, lv)`
least recently used.  Encoding one more distinct query `q` (a) removes
key `lk` from the cache, (b) reaches the underlying model once, and then
(c) re-querying the evicted text `lk` misses and reaches the underlying
model again, as observed by the call counter. -/
theorem encode_query_lru_eviction (f : String → Vec)
    (es : List (String × Vec)) (lk : String) (lv : Vec) (m : ℕ) (q : String)
    (hlen : es.length = 127)
    (hnd : ((es ++ [(lk, lv)]).map Prod.fst).Nodup)
    (hq : q ∉ (es ++ [(lk, lv)]).map Prod.fst) :
    lk ∉ ((encode_query f ⟨es ++ [(lk, lv)], m⟩ q).2.entries.map Prod.fst) ∧
      (encode_query f ⟨es ++ [(lk, lv)], m⟩ q).2.misses = m + 1 ∧
      (encode_query f (encode_query f ⟨es ++ [(lk, lv)], m⟩ q).2 lk).2.misses
        = m + 2 := by
  have hfind : (es ++ [(lk, lv)]).find? (fun p => p.1 == q) = none := by
    rw [List.find?_eq_none]
    intro p hp hbeq
    have hp1 : p.1 = q := by simpa using hbeq
    exact hq (hp1 ▸ List.mem_map_of_mem Prod.fst hp)
  have htake : ((q, f q) :: (es ++ [(lk, lv)])).take lruMaxsize =
      (q, f q) :: es := by
    rw [show lruMaxsize = 127 + 1 from rfl, List.take_succ_cons,
      List.take_left' hlen]
  have hstep : (encode_query f ⟨es ++ [(lk, lv)], m⟩ q).2 =
      ⟨(q, f q) :: es, m + 1⟩ := by
    rw [encode_query_miss f _ q hfind]
    show (⟨((q, f q) :: (es ++ [(lk, lv)])).take lruMaxsize, m + 1⟩ :
      EncCache) = _
    rw [htake]
  have hlk_mem : lk ∈ (es ++ [(lk, lv)]).map Prod.fst :=
    List.mem_map_of_mem Prod.fst
      (List.mem_append_right _ (List.mem_singleton_self _))
  have hlkq : lk ≠ q := fun h => hq (h ▸ hlk_mem)
  have hlk_es : lk ∉ es.map Prod.fst := by
    have h2 := hnd
    rw [List.map_append,
      show ([(lk, lv)].map Prod.fst) = [lk] from rfl] at h2
    rcases List.nodup_append.mp h2 with ⟨-, -, hdisj⟩
    intro hmem
    exact hdisj hmem (List.mem_singleton_self lk)
  have hconj1 :
      lk ∉ ((encode_query f ⟨es ++ [(lk, lv)], m⟩ q).2.entries.map Prod.fst) := by
    rw [hstep]
    simp only [List.map_cons, List.mem_cons]
    rintro (h | h)
    · exact hlkq h
    · exact hlk_es h
  have hfind2 : ((q, f q) :: es).find? (fun p => p.1 == lk) = none := by
    rw [List.find?_eq_none]
    intro p hp hbeq
    have hp1 : p.1 = lk := by simpa using hbeq
    rcases List.mem_cons.mp hp with rfl | hmem
    · exact hlkq hp1.symm
    · exact hlk_es (hp1 ▸ List.mem_map_of_mem Prod.fst hmem)
  refine ⟨hconj1, by rw [hstep], ?_⟩
  rw [hstep, encode_query_miss f ⟨(q, f q) :: es, m + 1⟩ lk hfind2]

/-- A concrete full cache for the C8 witness: 127 most-recently-used
entries with distinct single-character keys. -/
def wEntries : List (String × Vec) :=
  (List.range 127).map (fun i => (String.mk [Char.ofNat (65 + i)], []))

/-- The least-recently-used key of the witness cache (distinct from every
`wEntries` key). -/
def wKey : String := String.mk [Char.ofNat 50]

set_option maxRecDepth 100000 in
/-- C8 witness: a full 128-entry cache, a fresh query `"qq"`, and the
eviction and re-encoding of the least recently used key. -/
theorem encode_query_lru_eviction_witness :
    wEntries.length = 127 ∧
      ((wEntries ++ [(wKey, [])]).map Prod.fst).Nodup ∧
      "qq" ∉ (wEntries ++ [(wKey, [])]).map Prod.fst ∧
      (wKey ∉ ((encode_query (fun _ => []) ⟨wEntries ++ [(wKey, [])], 0⟩
          "qq").2.entries.map Prod.fst) ∧
        (encode_query (fun _ => []) ⟨wEntries ++ [(wKey, [])], 0⟩
          "qq").2.misses = 0 + 1 ∧
        (encode_query (fun _ => [])
          (encode_query (fun _ => []) ⟨wEntries ++ [(wKey, [])], 0⟩ "qq").2
          wKey).2.misses = 0 + 2) := by
  have h1 : wEntries.length = 127 := by simp [wEntries]
  have h2 : ((wEntries ++ [(wKey, [])]).map Prod.fst).Nodup := by decide
  have h3 : "qq" ∉ (wEntries ++ [(wKey, [])]).map Prod.fst := by decide
  exact ⟨h1, h2, h3,
    encode_query_lru_eviction (fun _ => []) wEntries wKey [] 0 "qq" h1 h2 h3⟩

end QueryTube
